import Mathlib

/-!
Verification development for the batch video-compression pipeline
(`compress.py`).  The compression orchestration — capability probing,
encode-command construction, the single-file executor with its
accelerated-to-software fallback, batch scheduling and reporting — is
embedded shallowly below.  External effects (subprocess runs, the
filesystem clock and sizes) are supplied by explicit environment records,
and wall-clock time is measured in abstract ticks (naturals).
-/

/-! ### Configuration constants (lines 10-44 of the source) -/

/-- Input directory for discovered media files. -/
def MEDIA_DIR : String := "media"

/-- Output directory for compressed files. -/
def OUTPUT_DIR : String := "media_compressed"

/-- Known video extensions; the source stores them as a set of strings. -/
def VIDEO_EXTS : List String := [".mp4", ".mov", ".webm", ".ogg", ".avi", ".mkv", ".flv"]

/-- Configured maximum number of parallel encodes. -/
def MAX_PARALLEL : Nat := 3

/-- The accelerated-mode (NVENC) settings dictionary. -/
structure GpuSettings where
  resolution : String
  fps : Nat
  codec : String
  preset : String
  tune : String
  rc : String
  cq : Nat
  b_v : String
  maxrate : String
  bufsize : String
  audio_bitrate : String
  audio_codec : String
  pixel_format : String
deriving DecidableEq

/-- The software-mode (libx264) settings dictionary. -/
structure CpuSettings where
  resolution : String
  fps : Nat
  codec : String
  crf : Nat
  preset : String
  audio_bitrate : String
  audio_codec : String
  pixel_format : String
deriving DecidableEq

/-- `GPU_SETTINGS` of the source, lines 18-32. -/
def GPU_SETTINGS : GpuSettings :=
  ⟨"1920", 60, "h264_nvenc", "p5", "hq", "vbr", 22, "8M", "12M", "16M", "192k", "aac", "yuv420p"⟩

/-- `CPU_SETTINGS` of the source, lines 35-44. -/
def CPU_SETTINGS : CpuSettings :=
  ⟨"1920", 60, "libx264", 20, "medium", "192k", "aac", "yuv420p"⟩

/-! ### Path helpers (models of the `os.path` and `pathlib` calls the source makes) -/

/-- Model of `os.path.join(dir, name)` on POSIX-style paths. -/
def os_join (d name : String) : String := d ++ "/" ++ name

/-- Character-level worker for `os_basename`: everything after the last slash. -/
def basename_chars (cs : List Char) : List Char :=
  cs.foldl (fun acc c => if c = '/' then [] else acc ++ [c]) []

/-- Model of `os.path.basename`: the final path component. -/
def os_basename (p : String) : String := String.mk (basename_chars p.toList)

/-- Model of `os.path.splitext(name)` for a bare file name: split at the last
dot, except that a name whose characters before that dot are all dots (for
example a dotfile) has no extension. -/
def splitext (name : String) : String × String :=
  let cs := name.toList
  match cs.reverse.indexOf? '.' with
  | none => (name, "")
  | some r =>
    let sepIndex := cs.length - 1 - r
    if (cs.take sepIndex).any (fun c => c ≠ '.') then
      (String.mk (cs.take sepIndex), String.mk (cs.drop sepIndex))
    else
      (name, "")

/-- Model of `pathlib.Path(name).stem` for a bare file name: the name without
its suffix, where the suffix starts at the last dot if that dot is neither
the first nor the last character. -/
def path_stem (name : String) : String :=
  let cs := name.toList
  match cs.reverse.indexOf? '.' with
  | none => name
  | some r =>
    let i := cs.length - 1 - r
    if 0 < i ∧ i < cs.length - 1 then String.mk (cs.take i) else name

/-! ### Encode command builders (lines 147-201 of the source) -/

/-- The scale-and-pad filter expression as written in `build_gpu_cmd`. -/
def gpu_scale_filter : String :=
  "scale=\x27min(iw,1920)\x27:\x27min(ih,1080)\x27:force_original_aspect_ratio=decrease,pad=\x27ceil(iw/2)*2\x27:\x27ceil(ih/2)*2\x27"

/-- The scale-and-pad filter expression as written in `build_cpu_cmd`. -/
def cpu_scale_filter : String :=
  "scale=\x27min(iw,1920)\x27:\x27min(ih,1080)\x27:force_original_aspect_ratio=decrease,pad=\x27ceil(iw/2)*2\x27:\x27ceil(ih/2)*2\x27"

/-- `build_gpu_cmd(input_path, output_path)`: the accelerated-mode argument list. -/
def build_gpu_cmd (input_path output_path : String) : List String :=
  let s := GPU_SETTINGS
  ["ffmpeg", "-y",
   "-hwaccel", "cuda",
   "-i", input_path,
   "-c:v", s.codec,
   "-preset", s.preset,
   "-tune", s.tune,
   "-rc", s.rc,
   "-cq", toString s.cq,
   "-b:v", s.b_v,
   "-maxrate", s.maxrate,
   "-bufsize", s.bufsize,
   "-r", toString s.fps,
   "-vf", gpu_scale_filter,
   "-pix_fmt", s.pixel_format,
   "-c:a", s.audio_codec,
   "-b:a", s.audio_bitrate,
   "-movflags", "+faststart",
   output_path]

/-- `build_cpu_cmd(input_path, output_path)`: the software-mode argument list. -/
def build_cpu_cmd (input_path output_path : String) : List String :=
  let s := CPU_SETTINGS
  ["ffmpeg", "-y",
   "-i", input_path,
   "-c:v", s.codec,
   "-preset", s.preset,
   "-crf", toString s.crf,
   "-r", toString s.fps,
   "-vf", cpu_scale_filter,
   "-pix_fmt", s.pixel_format,
   "-c:a", s.audio_codec,
   "-b:a", s.audio_bitrate,
   "-movflags", "+faststart",
   "-threads", "0",
   output_path]

/-! ### Denotation of the scale-and-pad filter expression

The expression is data in the source; its meaning is fixed by the external
encoder.  The next definitions are modelled from the spec's description of
that meaning ("scale down (never up) so neither dimension exceeds a
1920x1080 bound while preserving aspect ratio, then pad each dimension up
to the nearest even integer") together with the documented semantics of the
encoder's scale filter: the two expressions are evaluated to
`min(iw,1920)` and `min(ih,1080)`, then `force_original_aspect_ratio=decrease`
lowers each target to the round-to-nearest rescale of the other so the
aspect ratio is kept, and the pad expressions grow each dimension to the
next even integer. -/

/-- Round-to-nearest integer rescale `a * b / c`, as the encoder computes it
for positive arguments. -/
def av_rescale (a b c : Nat) : Nat := (a * b + c / 2) / c

/-- Dimensions produced by the scale step of the filter on a `iw` x `ih` input. -/
def scale_dims (iw ih : Nat) : Nat × Nat :=
  let w0 := min iw 1920
  let h0 := min ih 1080
  let tmp_w := av_rescale h0 iw ih
  let tmp_h := av_rescale w0 ih iw
  (min w0 tmp_w, min h0 tmp_h)

/-- The pad step `ceil(d/2)*2`: the next even integer at or above `d`. -/
def pad_even (d : Nat) : Nat := ((d + 1) / 2) * 2

/-- Dimensions produced by the whole scale-and-pad filter. -/
def filter_dims (iw ih : Nat) : Nat × Nat :=
  let s := scale_dims iw ih
  (pad_even s.1, pad_even s.2)

/-! ### Capability probe `check_nvenc` (lines 60-88 of the source) -/

/-- Environment for one run of the acceleration probe: the synthetic encode
subprocess either raises (`Except.error`, covering timeout and crash) or
completes with a return code and whether its stderr mentions the
accelerated encoder; plus whether the test output artifact exists and its
size.  Cleanup of the artifact is modelled as effect-free. -/
structure NvencEnv where
  run : Except Unit (Int × Bool)
  exists_out : Bool
  size_out : Nat

/-- `check_nvenc()`: probes whether accelerated encoding works by a tiny
synthetic encode.  Returns true when the output artifact exists and is
non-empty, or — the stderr fallback check of lines 77-80 — when the
process exited zero with the encoder name in stderr; false otherwise,
exceptions included. -/
def check_nvenc (env : NvencEnv) : Bool :=
  match env.run with
  | .error _ => false
  | .ok (returncode, stderr_has_nvenc) =>
    if env.exists_out && decide (0 < env.size_out) then true
    else if stderr_has_nvenc && decide (returncode = 0) then true
    else false

/-! ### Single-file executor `compress_video` (lines 204-269 of the source) -/

/-- The record a finished task reports, `(success, filename, original_size,
compressed_size, elapsed)` in the source. -/
structure CompressionResult where
  succeeded : Bool
  filename : String
  originalSizeBytes : Nat
  compressedSizeBytes : Nat
  elapsedSeconds : Nat
deriving DecidableEq

/-- Outcome of one encoder subprocess invocation: it either completes with a
return code after `duration` ticks, or raises after `duration` ticks. -/
inductive RunResult where
  | done (returncode : Int) (duration : Nat)
  | exn (duration : Nat)
deriving DecidableEq

/-- Environment of one executor task: the size read of the input file (which
can raise, `os.path.getsize` on line 207), the behaviour of running a given
command line, and the size read of the output file after a successful run
(lines 251, with `outputSizeDur` the ticks that read takes). -/
structure ExecEnv where
  inputSize : Except Unit Nat
  run : List String → RunResult
  outputSize : Except Unit Nat
  outputSizeDur : Nat

/-- Shared tail of `compress_video` (lines 244-264): a non-zero return code
reports failure with zero compressed bytes; otherwise the output size is
read (an exception there lands in the handler of lines 266-269, whose
re-measured elapsed time spans the last run plus the failed read). -/
def finish_attempt (env : ExecEnv) (filename : String) (original_size : Nat)
    (returncode : Int) (elapsed : Nat) : CompressionResult :=
  if returncode ≠ 0 then
    ⟨false, filename, original_size, 0, elapsed⟩
  else
    match env.outputSize with
    | .error _ => ⟨false, filename, original_size, 0, elapsed + env.outputSizeDur⟩
    | .ok compressed_size => ⟨true, filename, original_size, compressed_size, elapsed⟩

/-- `compress_video(input_path, output_path, index, total, use_gpu)` with the
two print-only progress-label parameters omitted.  The input-size read of
line 207 happens before the `try` of line 223, so its exception propagates
(`Except.error`); from the first subprocess run onward every exception is
converted to a failed result.  A non-zero return code with `use_gpu` set
triggers the one synchronous software retry of lines 232-242, re-measuring
elapsed time from the retry's start. -/
def compress_video (input_path output_path : String) (use_gpu : Bool)
    (env : ExecEnv) : Except Unit CompressionResult :=
  let filename := os_basename input_path
  match env.inputSize with
  | .error e => .error e
  | .ok original_size =>
    let cmd := if use_gpu then build_gpu_cmd input_path output_path
               else build_cpu_cmd input_path output_path
    match env.run cmd with
    | .exn d => .ok ⟨false, filename, original_size, 0, d⟩
    | .done rc elapsed =>
      if rc ≠ 0 ∧ use_gpu = true then
        match env.run (build_cpu_cmd input_path output_path) with
        | .exn d => .ok ⟨false, filename, original_size, 0, d⟩
        | .done rc2 elapsed2 => .ok (finish_attempt env filename original_size rc2 elapsed2)
      else
        .ok (finish_attempt env filename original_size rc elapsed)

/-! ### Batch scheduler (lines 292-350 of the source) -/

/-- The lexicographic-by-code-point string order the source's `sorted` uses,
expressed on the underlying character lists so that it evaluates; it agrees
with the standard string order (see the discovery theorem). -/
def str_le (a b : String) : Prop := a.toList ≤ b.toList

instance : DecidableRel str_le := fun a b => by unfold str_le; infer_instance

/-- Model of the hidden-entry test `f.startswith(".")`: the first character
of the name is a dot. -/
def starts_with_dot (f : String) : Bool :=
  match f.toList with
  | [] => false
  | c :: _ => c = '.'

/-- Model of `str.lower()` on ASCII extensions: lower-case each character. -/
def str_lower (s : String) : String := String.mk (s.toList.map Char.toLower)

/-- Discovery loop of lines 292-298: sort the directory entries
lexicographically, skip hidden names (leading dot), keep names whose
lower-cased extension is a known video extension.  The source's
append-loop over the sorted list is written as a filter. -/
def discover (entries : List String) : List String :=
  (entries.insertionSort str_le).filter
    (fun f => !(starts_with_dot f) && decide (str_lower (splitext f).2 ∈ VIDEO_EXTS))

/-- Concurrency level of line 305: the configured maximum when acceleration
is available, strictly sequential otherwise. -/
def parallel (use_gpu : Bool) : Nat := if use_gpu then MAX_PARALLEL else 1

/-- Task list of lines 332-337: for the i-th discovered file (1-based) the
input path under `MEDIA_DIR`, the output path `stem + ".mp4"` under
`OUTPUT_DIR`, the 1-based index and the total count. -/
def batch_tasks (videos : List String) : List (String × String × Nat × Nat) :=
  (List.enumFrom 1 videos).map
    (fun p => (os_join MEDIA_DIR p.2, os_join OUTPUT_DIR (path_stem p.2 ++ ".mp4"),
               p.1, videos.length))

/-- One executor outcome per task, with each task's external behaviour read
from the per-input-path environment. -/
def batch_results (videos : List String) (use_gpu : Bool) (env : String → ExecEnv) :
    List (Except Unit CompressionResult) :=
  (batch_tasks videos).map (fun t => compress_video t.1 t.2.1 use_gpu (env t.1))

/-- Result collection of lines 348-350: `future.result()` re-raises a task's
exception, so the batch's result list exists only when no task raised. -/
def collect_results : List (Except Unit CompressionResult) → Except Unit (List CompressionResult)
  | [] => .ok []
  | r :: rs =>
    match r with
    | .error e => .error e
    | .ok v =>
      match collect_results rs with
      | .error e => .error e
      | .ok vs => .ok (v :: vs)

/-- The whole dispatched batch: every discovered file's task run and collected. -/
def batch_collect (videos : List String) (use_gpu : Bool) (env : String → ExecEnv) :
    Except Unit (List CompressionResult) :=
  collect_results (batch_results videos use_gpu env)

/-! ### Reporting (lines 355-360 of the source) -/

/-- The aggregates the final summary prints. -/
structure Summary where
  successCount : Nat
  failedCount : Nat
  total_compressed : Nat
  total_orig : Nat
  total_saved : Int
  saved_pct : ℚ
deriving DecidableEq

/-- Summary aggregation of lines 355-360: successes and failures split the
result list, compressed bytes are summed over the successes only, original
bytes over all results, and the saved percentage guards against an empty
total. -/
def summarize (results : List CompressionResult) : Summary :=
  let success := results.filter (fun r => r.succeeded)
  let failed := results.filter (fun r => !r.succeeded)
  let total_compressed : Nat := (success.map (fun r => r.compressedSizeBytes)).sum
  let total_orig : Nat := (results.map (fun r => r.originalSizeBytes)).sum
  let total_saved : Int := (total_orig : Int) - (total_compressed : Int)
  let saved_pct : ℚ := if 0 < total_orig then (total_saved : ℚ) / (total_orig : ℚ) * 100 else 0
  ⟨success.length, failed.length, total_compressed, total_orig, total_saved, saved_pct⟩

/-! ### Concrete environments used as witnesses and counterexamples -/

/-- An execution environment whose accelerated run fails with exit code 1
after 5 ticks while every other command succeeds in 7 ticks; input size
100, output size 40. -/
def env_gpu_fail : ExecEnv :=
  ⟨.ok 100,
   fun cmd => if cmd = build_gpu_cmd (os_join MEDIA_DIR ("a.mp4")) (os_join OUTPUT_DIR ("a.mp4"))
              then .done 1 5 else .done 0 7,
   .ok 40, 0⟩

/-- An execution environment where every run fails with exit code 1 after 9
ticks; input size 100. -/
def env_all_fail : ExecEnv :=
  ⟨.ok 100, fun _ => .done 1 9, .ok 40, 0⟩

/-- An execution environment where every run succeeds in 4 ticks; input size
50, output size 30. -/
def env_all_ok : ExecEnv :=
  ⟨.ok 50, fun _ => .done 0 4, .ok 30, 0⟩

/-- An execution environment whose input-size read raises, as when the input
file disappears between discovery and execution. -/
def env_input_gone : ExecEnv :=
  ⟨.error (), fun _ => .done 0 4, .ok 30, 0⟩

/-- A probe environment where the synthetic encode exits zero and mentions
the encoder in stderr but leaves no output artifact behind. -/
def nvenc_env_stderr_only : NvencEnv := ⟨.ok (0, true), false, 0⟩

/-! ## Theorems -/

/-! ### C5: concurrency level -/

/-- C5: the scheduler's concurrency level, chosen once from the capability
state, is exactly 1 without acceleration and exactly the configured
maximum `MAX_PARALLEL = 3` with it. -/
theorem c5_concurrency_level :
    parallel false = 1 ∧ parallel true = MAX_PARALLEL ∧ MAX_PARALLEL = 3 :=
  ⟨rfl, rfl, rfl⟩

/-! ### C3: the acceleration probe -/

/-- C3 counterexample: the claim says the probe returns true only when the
output artifact exists and is non-empty, but on a run that exits zero with
the encoder name in stderr while leaving no artifact, the probe still
returns true. -/
theorem c3_counterexample :
    check_nvenc nvenc_env_stderr_only = true ∧
      nvenc_env_stderr_only.exists_out = false ∧ nvenc_env_stderr_only.size_out = 0 :=
  ⟨rfl, rfl, rfl⟩

/-- C3 (amended): the probe returns true iff the synthetic encode completed
without exception and either its output artifact exists non-empty, or the
process exited zero with the encoder name in stderr; in every other case,
exceptions included, it returns false (and, being a total function of its
environment, it never propagates an exception). -/
theorem c3_probe_characterization (env : NvencEnv) :
    check_nvenc env = true ↔
      ∃ returncode stderr_has_nvenc,
        env.run = Except.ok (returncode, stderr_has_nvenc) ∧
          ((env.exists_out = true ∧ 0 < env.size_out) ∨
            (stderr_has_nvenc = true ∧ returncode = 0)) := by
  have key : ∀ (rc : Int) (flag : Bool), env.run = Except.ok (rc, flag) →
      (check_nvenc env = true ↔
        ((env.exists_out = true ∧ 0 < env.size_out) ∨ (flag = true ∧ rc = 0))) := by
    intro rc flag hrun
    simp only [check_nvenc, hrun]
    cases h1 : (env.exists_out && decide (0 < env.size_out)) <;>
      cases h2 : (flag && decide (rc = 0)) <;>
        simp_all [Bool.and_eq_true, decide_eq_true_eq]
  rcases hrun : env.run with e | ⟨rc, flag⟩
  · constructor
    · intro h
      simp [check_nvenc, hrun] at h
    · rintro ⟨rc2, flag2, heq, _⟩
      simp at heq
  · rw [key rc flag hrun]
    constructor
    · intro h
      exact ⟨rc, flag, rfl, h⟩
    · rintro ⟨rc2, flag2, heq, hcase⟩
      obtain ⟨rfl, rfl⟩ : rc = rc2 ∧ flag = flag2 := by
        simpa [Prod.mk.injEq] using heq
      exact hcase

/-! ### C10: output-path collision for same-stem inputs -/

/-- The output column of the task list, position by position: each
discovered file's stem plus ".mp4" under the output directory, independent
of the file's extension and of its position in the batch. -/
theorem enumFrom_outputs (videos : List String) :
    ∀ i : Nat, (List.enumFrom i videos).map
        (fun p : Nat × String => os_join OUTPUT_DIR (path_stem p.2 ++ ".mp4")) =
      videos.map (fun f => os_join OUTPUT_DIR (path_stem f ++ ".mp4")) := by
  induction videos with
  | nil => intro i; rfl
  | cons f fs ih =>
    intro i
    simp only [List.enumFrom_cons, List.map_cons]
    rw [ih (i + 1)]

/-- The scheduler's output-path assignment, for every batch. -/
theorem batch_tasks_outputs (videos : List String) :
    (batch_tasks videos).map (fun t => t.2.1) =
      videos.map (fun f => os_join OUTPUT_DIR (path_stem f ++ ".mp4")) := by
  unfold batch_tasks
  rw [List.map_map]
  exact enumFrom_outputs videos 1

/-- Reading a list with a default at an in-range position gives the element. -/
theorem getD_of_lt (l : List String) (n : Nat) (hn : n < l.length) :
    l.getD n "" = l.get ⟨n, hn⟩ := by
  rw [List.getD_eq_getElem?_getD, List.getElem?_eq_getElem hn]
  rfl

/-- C10: for every batch, the output path assigned to each discovered file
is its stem plus ".mp4" inside the fixed output directory, so any two
discovered files whose names share a stem — whatever their extensions and
wherever they sit in the batch — are assigned the same output path; in
particular clip.mov and clip.mp4 both target media_compressed/clip.mp4,
and both built commands carry the overwrite flag, so the later finishing
encode overwrites the earlier one's output. -/
theorem c10_same_stem_same_output :
    (∀ videos : List String,
        (batch_tasks videos).map (fun t => t.2.1) =
          videos.map (fun f => os_join OUTPUT_DIR (path_stem f ++ ".mp4"))) ∧
    (∀ (videos : List String) (i j : Nat), i < videos.length → j < videos.length →
        path_stem (videos.getD i "") = path_stem (videos.getD j "") →
        ((batch_tasks videos).map (fun t => t.2.1)).getD i "" =
          ((batch_tasks videos).map (fun t => t.2.1)).getD j "") ∧
    batch_tasks ["clip.mov", "clip.mp4"] =
      [("media/clip.mov", "media_compressed/clip.mp4", 1, 2),
       ("media/clip.mp4", "media_compressed/clip.mp4", 2, 2)] ∧
    (∀ input_path output_path : String,
       "-y" ∈ build_gpu_cmd input_path output_path ∧
       "-y" ∈ build_cpu_cmd input_path output_path) := by
  refine ⟨batch_tasks_outputs, ?_, rfl, fun input_path output_path => ⟨?_, ?_⟩⟩
  · intro videos i j hi hj hstem
    rw [batch_tasks_outputs videos]
    have hi2 : i < (videos.map (fun f => os_join OUTPUT_DIR (path_stem f ++ ".mp4"))).length := by
      simpa using hi
    have hj2 : j < (videos.map (fun f => os_join OUTPUT_DIR (path_stem f ++ ".mp4"))).length := by
      simpa using hj
    rw [getD_of_lt _ _ hi2, getD_of_lt _ _ hj2]
    rw [getD_of_lt _ _ hi, getD_of_lt _ _ hj] at hstem
    simp only [List.get_eq_getElem, List.getElem_map]
    rw [show (videos.get ⟨i, hi⟩ : String) = videos[i] from rfl,
        show (videos.get ⟨j, hj⟩ : String) = videos[j] from rfl] at hstem
    rw [hstem]
  · simp [build_gpu_cmd]
  · simp [build_cpu_cmd]

/-! ### C8: summary aggregation -/

/-- Compressed bytes summed over the successes equal the sum over all
results where a failed result contributes zero. -/
theorem sum_compressed_over_successes (results : List CompressionResult) :
    ((results.filter (fun r => r.succeeded)).map (fun r => r.compressedSizeBytes)).sum =
      (results.map (fun r => if r.succeeded then r.compressedSizeBytes else 0)).sum := by
  induction results with
  | nil => rfl
  | cons r rs ih =>
    by_cases h : r.succeeded = true <;> simp [List.filter_cons, h, ih]

/-- Success and failure counts split the result list. -/
theorem success_failed_split (results : List CompressionResult) :
    (results.filter (fun r => r.succeeded)).length +
      (results.filter (fun r => !r.succeeded)).length = results.length := by
  induction results with
  | nil => rfl
  | cons r rs ih =>
    by_cases h : r.succeeded = true <;> simp [List.filter_cons, h] <;> omega

/-- C8: the summary computes total original bytes over all results, total
compressed bytes over succeeded results only (failed results contribute 0),
success and failure counts splitting the list, saved bytes as the
difference, percentage saved as saved over original times 100 guarded to 0
for an empty total; and on the concrete results with original sizes
[1000, 2000] and compressed sizes [500, 2500], both succeeded, it reports 2
successes, 0 saved and 0 percent. -/
theorem c8_summary_aggregation :
    (∀ results : List CompressionResult,
       (summarize results).total_orig = (results.map (fun r => r.originalSizeBytes)).sum ∧
       (summarize results).total_compressed =
         (results.map (fun r => if r.succeeded then r.compressedSizeBytes else 0)).sum ∧
       (summarize results).successCount = (results.filter (fun r => r.succeeded)).length ∧
       (summarize results).successCount + (summarize results).failedCount = results.length ∧
       (summarize results).total_saved =
         ((summarize results).total_orig : Int) - ((summarize results).total_compressed : Int) ∧
       ((summarize results).total_orig = 0 → (summarize results).saved_pct = 0) ∧
       (0 < (summarize results).total_orig →
         (summarize results).saved_pct =
           ((summarize results).total_saved : ℚ) / ((summarize results).total_orig : ℚ) * 100)) ∧
    summarize [⟨true, "a.mp4", 1000, 500, 1⟩, ⟨true, "b.mp4", 2000, 2500, 1⟩] =
      ⟨2, 0, 3000, 3000, 0, 0⟩ := by
  constructor
  · intro results
    refine ⟨rfl, sum_compressed_over_successes results, rfl,
            success_failed_split results, rfl, ?_, ?_⟩
    · intro h0
      simp only [summarize]
      rw [if_neg (by simp only [summarize] at h0; omega)]
    · intro h0
      simp only [summarize]
      rw [if_pos (by simp only [summarize] at h0; omega)]
  · simp only [summarize, List.filter, List.map, List.sum_cons, List.sum_nil, List.length]
    norm_num

/-! ### C7: the scale-and-pad filter -/

/-- Lower gauge for the round-to-nearest rescale. -/
theorem av_rescale_mul_le (a b c : Nat) : av_rescale a b c * c ≤ a * b + c := by
  have h := Nat.div_mul_le_self (a * b + c / 2) c
  have h2 : c / 2 ≤ c := Nat.div_le_self c 2
  unfold av_rescale
  exact le_trans h (by omega)

/-- Upper gauge for the round-to-nearest rescale. -/
theorem le_av_rescale_mul (a b c : Nat) (hc : 0 < c) :
    a * b ≤ av_rescale a b c * c + c := by
  unfold av_rescale
  calc a * b ≤ a * b + c / 2 := Nat.le_add_right _ _
    _ = c * ((a * b + c / 2) / c) + (a * b + c / 2) % c := (Nat.div_add_mod _ _).symm
    _ ≤ c * ((a * b + c / 2) / c) + c :=
        Nat.add_le_add_left (Nat.le_of_lt (Nat.mod_lt _ hc)) _
    _ = (a * b + c / 2) / c * c + c := by rw [Nat.mul_comm]

/-- The scale step keeps the aspect ratio up to integer-rounding slack. -/
theorem scale_dims_aspect (iw ih : Nat) (hw : 0 < iw) (hh : 0 < ih) :
    (scale_dims iw ih).1 * ih ≤ (scale_dims iw ih).2 * iw + 2 * (iw + ih) ∧
      (scale_dims iw ih).2 * iw ≤ (scale_dims iw ih).1 * ih + 2 * (iw + ih) := by
  have F1 : av_rescale (min ih 1080) iw ih * ih ≤ min ih 1080 * iw + ih :=
    av_rescale_mul_le _ _ _
  have F2 : min ih 1080 * iw ≤ av_rescale (min ih 1080) iw ih * ih + ih :=
    le_av_rescale_mul _ _ _ hh
  have F3 : av_rescale (min iw 1920) ih iw * iw ≤ min iw 1920 * ih + iw :=
    av_rescale_mul_le _ _ _
  have F4 : min iw 1920 * ih ≤ av_rescale (min iw 1920) ih iw * iw + iw :=
    le_av_rescale_mul _ _ _ hw
  simp only [scale_dims]
  rcases Nat.le_total (min iw 1920) (av_rescale (min ih 1080) iw ih) with hA | hA <;>
    rcases Nat.le_total (min ih 1080) (av_rescale (min iw 1920) ih iw) with hB | hB
  · rw [Nat.min_eq_left hA, Nat.min_eq_left hB]
    have MA : min iw 1920 * ih ≤ av_rescale (min ih 1080) iw ih * ih :=
      Nat.mul_le_mul hA (Nat.le_refl ih)
    have MB : min ih 1080 * iw ≤ av_rescale (min iw 1920) ih iw * iw :=
      Nat.mul_le_mul hB (Nat.le_refl iw)
    constructor <;> linarith
  · rw [Nat.min_eq_left hA, Nat.min_eq_right hB]
    constructor <;> linarith
  · rw [Nat.min_eq_right hA, Nat.min_eq_left hB]
    constructor <;> linarith
  · rw [Nat.min_eq_right hA, Nat.min_eq_right hB]
    have MA : av_rescale (min ih 1080) iw ih * ih ≤ min iw 1920 * ih :=
      Nat.mul_le_mul hA (Nat.le_refl ih)
    have MB : av_rescale (min iw 1920) ih iw * iw ≤ min ih 1080 * iw :=
      Nat.mul_le_mul hB (Nat.le_refl iw)
    constructor <;> linarith

/-- C7 counterexample: the claim says the filter's output dimensions are
never larger than the input dimensions, but a 1919x1079 input is padded to
1920x1080 (evenness forces one extra pixel on each odd dimension). -/
theorem c7_counterexample :
    filter_dims 1919 1079 = (1920, 1080) ∧ ¬ (1920 ≤ 1919) :=
  ⟨by decide, by decide⟩

/-- C7 (amended): the GPU and CPU command builders embed the identical
scale-and-pad filter expression; the scale step never upscales (each scaled
dimension is at most the input's and at most the 1920x1080 bound) and
keeps the aspect ratio up to integer-rounding slack; the padded output
dimensions are even, never exceed 1920x1080 and exceed the scaled ones by
at most one pixel each — so for an input with an odd dimension the output
can be one pixel larger than the input in that dimension. -/
theorem c7_filter_amended (iw ih : Nat) (hw : 0 < iw) (hh : 0 < ih) :
    gpu_scale_filter = cpu_scale_filter ∧
    (∀ input_path output_path : String,
       gpu_scale_filter ∈ build_gpu_cmd input_path output_path ∧
       cpu_scale_filter ∈ build_cpu_cmd input_path output_path) ∧
    (scale_dims iw ih).1 ≤ iw ∧ (scale_dims iw ih).2 ≤ ih ∧
    (scale_dims iw ih).1 ≤ 1920 ∧ (scale_dims iw ih).2 ≤ 1080 ∧
    (filter_dims iw ih).1 % 2 = 0 ∧ (filter_dims iw ih).2 % 2 = 0 ∧
    (filter_dims iw ih).1 ≤ 1920 ∧ (filter_dims iw ih).2 ≤ 1080 ∧
    (filter_dims iw ih).1 ≤ (scale_dims iw ih).1 + 1 ∧
    (filter_dims iw ih).2 ≤ (scale_dims iw ih).2 + 1 ∧
    (scale_dims iw ih).1 * ih ≤ (scale_dims iw ih).2 * iw + 2 * (iw + ih) ∧
    (scale_dims iw ih).2 * iw ≤ (scale_dims iw ih).1 * ih + 2 * (iw + ih) := by
  obtain ⟨hasp1, hasp2⟩ := scale_dims_aspect iw ih hw hh
  refine ⟨rfl, fun input_path output_path => ⟨?_, ?_⟩, ?_, ?_, ?_, ?_, ?_, ?_, ?_, ?_, ?_, ?_,
          hasp1, hasp2⟩
  · simp [build_gpu_cmd]
  · simp [build_cpu_cmd]
  all_goals simp only [scale_dims, filter_dims, pad_even]
  all_goals omega

/-! ### C6: discovery -/

/-- C6: discovery returns exactly the entries that are not hidden (no
leading dot) and whose lower-cased extension is a known video extension,
sorted lexicographically; in particular on the entries a.MOV, b.mp4,
.hidden.mp4, c.txt it returns exactly [a.MOV, b.mp4] in that order. -/
theorem c6_discovery :
    (∀ (entries : List String) (f : String),
        f ∈ discover entries ↔
          f ∈ entries ∧ starts_with_dot f = false ∧ str_lower (splitext f).2 ∈ VIDEO_EXTS) ∧
    (∀ entries : List String, List.Sorted (· ≤ ·) (discover entries)) ∧
    discover ["a.MOV", "b.mp4", ".hidden.mp4", "c.txt"] = ["a.MOV", "b.mp4"] := by
  refine ⟨?_, ?_, by decide⟩
  · intro entries f
    unfold discover
    rw [List.mem_filter, List.mem_insertionSort]
    simp [Bool.and_eq_true, Bool.not_eq_true', decide_eq_true_eq]
  · intro entries
    haveI : IsTotal String str_le := ⟨fun a b => le_total a.toList b.toList⟩
    haveI : IsTrans String str_le := ⟨fun a b c hab hbc => le_trans hab hbc⟩
    have hs : List.Sorted str_le (entries.insertionSort str_le) :=
      List.sorted_insertionSort str_le entries
    have hf : List.Sorted str_le (discover entries) :=
      List.Pairwise.sublist (List.filter_sublist _) hs
    exact hf.imp (fun h => String.le_iff_toList_le.mpr h)

/-! ### Shared executor lemmas -/

/-- Once the input-size read succeeds, every path through the guarded region
of the executor produces a result record. -/
theorem compress_video_run_ok (input_path output_path : String) (use_gpu : Bool)
    (env : ExecEnv) (sz : Nat) (hin : env.inputSize = Except.ok sz) :
    ∃ r, compress_video input_path output_path use_gpu env = Except.ok r := by
  simp only [compress_video, hin]
  split
  · exact ⟨_, rfl⟩
  · split
    · split
      · exact ⟨_, rfl⟩
      · exact ⟨_, rfl⟩
    · exact ⟨_, rfl⟩

/-- The shared tail of the executor reports the file name and original size
it was given. -/
theorem finish_attempt_fields (env : ExecEnv) (fn : String) (sz : Nat) (rc : Int) (el : Nat) :
    (finish_attempt env fn sz rc el).filename = fn ∧
      (finish_attempt env fn sz rc el).originalSizeBytes = sz := by
  unfold finish_attempt
  split_ifs with h
  · exact ⟨rfl, rfl⟩
  · cases h2 : env.outputSize <;> exact ⟨rfl, rfl⟩

/-- Whatever path a task takes, its result carries the basename of the
input path and the original size read at the start. -/
theorem compress_video_fields (input_path output_path : String) (use_gpu : Bool)
    (env : ExecEnv) (sz : Nat) (r : CompressionResult)
    (hin : env.inputSize = Except.ok sz)
    (h : compress_video input_path output_path use_gpu env = Except.ok r) :
    r.filename = os_basename input_path ∧ r.originalSizeBytes = sz := by
  simp only [compress_video, hin] at h
  split at h
  · obtain rfl := Except.ok.inj h
    exact ⟨rfl, rfl⟩
  · split at h
    · split at h
      · obtain rfl := Except.ok.inj h
        exact ⟨rfl, rfl⟩
      · obtain rfl := Except.ok.inj h
        exact finish_attempt_fields env _ sz _ _
    · obtain rfl := Except.ok.inj h
      exact finish_attempt_fields env _ sz _ _

/-! ### C1: accelerated failure falls back to software and reports its time -/

/-- C1: when the accelerated run exits non-zero, the executor synchronously
retries once with the software command on the same input and output paths;
when that fallback run succeeds, the result is marked succeeded and its
elapsed time is the fallback run's duration alone, independent of the
failed accelerated run's duration. -/
theorem c1_gpu_fallback (input_path output_path : String) (env : ExecEnv)
    (original_size compressed_size : Nat) (rc1 : Int) (d1 d2 : Nat)
    (hin : env.inputSize = Except.ok original_size)
    (hgpu : env.run (build_gpu_cmd input_path output_path) = RunResult.done rc1 d1)
    (hfail : rc1 ≠ 0)
    (hcpu : env.run (build_cpu_cmd input_path output_path) = RunResult.done 0 d2)
    (hout : env.outputSize = Except.ok compressed_size) :
    compress_video input_path output_path true env =
      Except.ok ⟨true, os_basename input_path, original_size, compressed_size, d2⟩ := by
  simp [compress_video, hin, hgpu, hcpu, hfail, finish_attempt, hout]

/-- Witness instance of C1: a concrete environment whose accelerated run
fails after 5 ticks and whose software run succeeds after 7 ticks. -/
theorem c1_gpu_fallback_witness :
    compress_video "media/a.mp4" "media_compressed/a.mp4" true env_gpu_fail =
      Except.ok ⟨true, "a.mp4", 100, 40, 7⟩ :=
  c1_gpu_fallback "media/a.mp4" "media_compressed/a.mp4" env_gpu_fail 100 40 1 5 7
    rfl (by decide) (by decide) (by decide) rfl

/-! ### C4: failed fallback, or failed software-only run -/

/-- C4: when the accelerated run fails and the software fallback also exits
non-zero, and likewise when software mode was requested from the start and
exits non-zero, the result is marked failed with zero compressed bytes and
the failed (final) run's duration as elapsed time. -/
theorem c4_both_fail (input_path output_path : String) (env : ExecEnv)
    (original_size : Nat) (rc1 rc2 : Int) (d1 d2 : Nat)
    (hin : env.inputSize = Except.ok original_size) :
    (env.run (build_gpu_cmd input_path output_path) = RunResult.done rc1 d1 → rc1 ≠ 0 →
      env.run (build_cpu_cmd input_path output_path) = RunResult.done rc2 d2 → rc2 ≠ 0 →
      compress_video input_path output_path true env =
        Except.ok ⟨false, os_basename input_path, original_size, 0, d2⟩) ∧
    (env.run (build_cpu_cmd input_path output_path) = RunResult.done rc2 d2 → rc2 ≠ 0 →
      compress_video input_path output_path false env =
        Except.ok ⟨false, os_basename input_path, original_size, 0, d2⟩) := by
  constructor
  · intro hgpu hfail1 hcpu hfail2
    simp [compress_video, hin, hgpu, hcpu, hfail1, hfail2, finish_attempt]
  · intro hcpu hfail
    simp [compress_video, hin, hcpu, hfail, finish_attempt]

/-- Witness instance of C4: a concrete environment in which every run exits
with code 1 after 9 ticks, exercised in both accelerated-then-fallback and
software-only modes. -/
theorem c4_both_fail_witness :
    (compress_video "media/a.mp4" "media_compressed/a.mp4" true env_all_fail =
      Except.ok ⟨false, "a.mp4", 100, 0, 9⟩) ∧
    (compress_video "media/a.mp4" "media_compressed/a.mp4" false env_all_fail =
      Except.ok ⟨false, "a.mp4", 100, 0, 9⟩) :=
  ⟨(c4_both_fail "media/a.mp4" "media_compressed/a.mp4" env_all_fail 100 1 1 9 9 rfl).1
      (by decide) (by decide) (by decide) (by decide),
   (c4_both_fail "media/a.mp4" "media_compressed/a.mp4" env_all_fail 100 1 1 9 9 rfl).2
      (by decide) (by decide)⟩

/-! ### C2: exception containment at the task boundary -/

/-- C2 counterexample: an exception in the input-size read of line 207
happens before the guarded region and propagates out of the task (and then
out of `future.result()` on line 349), so not every exception during a
task's execution is converted to a failed result. -/
theorem c2_counterexample :
    compress_video "media/a.mp4" "media_compressed/a.mp4" true env_input_gone =
      Except.error () := rfl

/-- All task outcomes succeed, so collection re-raises nothing and returns
the full list. -/
theorem collect_results_ok (l : List (Except Unit CompressionResult))
    (h : ∀ x ∈ l, ∃ r, x = Except.ok r) :
    ∃ rs, collect_results l = Except.ok rs ∧ l = rs.map Except.ok := by
  induction l with
  | nil => exact ⟨[], rfl, rfl⟩
  | cons x xs ih =>
    obtain ⟨r, hr⟩ := h x (List.mem_cons_self x xs)
    obtain ⟨rs, hrs, hmap⟩ := ih (fun y hy => h y (List.mem_cons_of_mem x hy))
    subst hr
    refine ⟨r :: rs, ?_, by simp [hmap]⟩
    simp [collect_results, hrs]

/-- C2 (amended): every exception raised from the first subprocess
invocation onward — including the fallback run and the output-size read —
is caught inside the executor and converted into a failed result; when in
addition every task's input-size read succeeds, every task returns a
result, so the batch's collection step raises nothing and the whole batch
completes with a result list. -/
theorem c2_exceptions_contained (input_path output_path : String) (use_gpu : Bool)
    (env : ExecEnv) (sz : Nat) (videos : List String) (envs : String → ExecEnv)
    (hin : env.inputSize = Except.ok sz)
    (hok : ∀ p, ∃ n, (envs p).inputSize = Except.ok n) :
    (∃ r, compress_video input_path output_path use_gpu env = Except.ok r) ∧
    (∃ rs, batch_collect videos use_gpu envs = Except.ok rs) := by
  constructor
  · exact compress_video_run_ok input_path output_path use_gpu env sz hin
  · have hall : ∀ x ∈ batch_results videos use_gpu envs, ∃ r, x = Except.ok r := by
      intro x hx
      obtain ⟨t, ht, rfl⟩ := List.mem_map.mp hx
      obtain ⟨n, hn⟩ := hok t.1
      obtain ⟨r, hr⟩ := compress_video_run_ok t.1 t.2.1 use_gpu (envs t.1) n hn
      exact ⟨r, hr⟩
    obtain ⟨rs, hrs, _⟩ := collect_results_ok _ hall
    exact ⟨rs, hrs⟩

/-- Witness instance of the amended C2 at a concrete healthy environment. -/
theorem c2_exceptions_contained_witness :
    (∃ r, compress_video "media/a.mp4" "media_compressed/a.mp4" true env_all_ok =
      Except.ok r) ∧
    (∃ rs, batch_collect ["a.mp4"] true (fun _ => env_all_ok) = Except.ok rs) :=
  c2_exceptions_contained "media/a.mp4" "media_compressed/a.mp4" true env_all_ok 50
    ["a.mp4"] (fun _ => env_all_ok) rfl (fun _ => ⟨50, rfl⟩)

/-! ### C9: one result per discovered file -/

/-- Folding the basename scanner over slash-free characters appends them. -/
theorem basename_foldl_no_slash (cs : List Char) :
    ∀ acc : List Char, ('/' : Char) ∉ cs →
      cs.foldl (fun acc c => if c = '/' then [] else acc ++ [c]) acc = acc ++ cs := by
  induction cs with
  | nil => intro acc h; simp
  | cons c cs ih =>
    intro acc h
    simp only [List.foldl_cons]
    rw [if_neg (by rintro rfl; exact h (List.mem_cons_self _ _))]
    rw [ih (acc ++ [c]) (fun hc => h (List.mem_cons_of_mem _ hc))]
    simp

/-- The basename of a joined path is the joined file name, provided that
name contains no separator (directory entries never do). -/
theorem os_basename_join (d f : String) (h : ('/' : Char) ∉ f.toList) :
    os_basename (os_join d f) = f := by
  unfold os_basename os_join basename_chars
  have hdata : (d ++ "/" ++ f).toList = d.toList ++ '/' :: f.toList := by
    show (d ++ "/" ++ f).data = d.data ++ '/' :: f.data
    have h2 : ("/" : String).data = ['/'] := rfl
    rw [String.data_append, String.data_append, h2]
    simp
  rw [hdata, List.foldl_append, List.foldl_cons, if_pos rfl,
      basename_foldl_no_slash f.toList [] h]
  rfl

/-- Each task's input path recovers the originating file name. -/
theorem enumFrom_basenames (videos : List String) :
    ∀ i : Nat, (∀ f ∈ videos, ('/' : Char) ∉ f.toList) →
      (List.enumFrom i videos).map (fun p => os_basename (os_join MEDIA_DIR p.2)) = videos := by
  induction videos with
  | nil => intro i h; rfl
  | cons f fs ih =>
    intro i h
    simp only [List.enumFrom_cons, List.map_cons]
    rw [os_basename_join MEDIA_DIR f (h f (List.mem_cons_self f fs)),
        ih (i + 1) (fun g hg => h g (List.mem_cons_of_mem f hg))]

/-- A healthy task's outcome, mapped to its file name, is the basename of
the input path. -/
theorem compress_map_filename (input_path output_path : String) (use_gpu : Bool)
    (env : ExecEnv) (sz : Nat) (hin : env.inputSize = Except.ok sz) :
    Except.map (fun r => r.filename) (compress_video input_path output_path use_gpu env) =
      Except.ok (os_basename input_path) := by
  obtain ⟨r, hr⟩ := compress_video_run_ok input_path output_path use_gpu env sz hin
  rw [hr]
  have hf := (compress_video_fields input_path output_path use_gpu env sz r hin hr).1
  simp [Except.map, hf]

/-- C9: when every task's input-size read succeeds (the paths of success,
failure and fallback), the collected batch has exactly one result per
discovered file — in task order the result file names are exactly the
discovered names — and in any completion order the result list still has
one result per input, with the file names a permutation of the (distinct)
inputs and themselves distinct. -/
theorem c9_one_result_per_file (videos : List String) (use_gpu : Bool)
    (env : String → ExecEnv) (rs results : List CompressionResult)
    (hok : ∀ p : String, ∃ n, (env p).inputSize = Except.ok n)
    (hslash : ∀ f ∈ videos, ('/' : Char) ∉ f.toList)
    (hnodup : videos.Nodup)
    (hcol : batch_collect videos use_gpu env = Except.ok rs)
    (hperm : results.Perm rs) :
    rs.map (fun r => r.filename) = videos ∧
    rs.length = videos.length ∧
    results.length = videos.length ∧
    (results.map (fun r => r.filename)).Perm videos ∧
    (results.map (fun r => r.filename)).Nodup := by
  have hall : ∀ x ∈ batch_results videos use_gpu env, ∃ r, x = Except.ok r := by
    intro x hx
    obtain ⟨t, ht, rfl⟩ := List.mem_map.mp hx
    obtain ⟨n, hn⟩ := hok t.1
    exact compress_video_run_ok t.1 t.2.1 use_gpu (env t.1) n hn
  obtain ⟨rs2, hcol2, hmap0⟩ := collect_results_ok _ hall
  obtain rfl : rs = rs2 := Except.ok.inj (hcol.symm.trans hcol2)
  have hmap := hmap0
  have hnames : rs.map (fun r => r.filename) = videos := by
    have hL : (batch_results videos use_gpu env).map (Except.map (fun r => r.filename)) =
        ((List.enumFrom 1 videos).map
          (fun p => os_basename (os_join MEDIA_DIR p.2))).map Except.ok := by
      unfold batch_results batch_tasks
      rw [List.map_map, List.map_map, List.map_map]
      apply List.map_congr_left
      intro p hp
      obtain ⟨n, hn⟩ := hok (os_join MEDIA_DIR p.2)
      simpa [Function.comp] using
        compress_map_filename (os_join MEDIA_DIR p.2)
          (os_join OUTPUT_DIR (path_stem p.2 ++ ".mp4")) use_gpu (env (os_join MEDIA_DIR p.2))
          n hn
    have hR : (batch_results videos use_gpu env).map (Except.map (fun r => r.filename)) =
        (rs.map (fun r => r.filename)).map Except.ok := by
      rw [hmap, List.map_map, List.map_map]
      rfl
    have hkey : (List.enumFrom 1 videos).map (fun p => os_basename (os_join MEDIA_DIR p.2)) =
        rs.map (fun r => r.filename) :=
      List.map_injective_iff.mpr (fun a b hab => Except.ok.inj hab) (hL.symm.trans hR)
    rw [← hkey, enumFrom_basenames videos 1 hslash]
  refine ⟨hnames, ?_, ?_, ?_, ?_⟩
  · rw [← hnames, List.length_map]
  · rw [hperm.length_eq, ← hnames, List.length_map]
  · rw [← hnames]
    exact hperm.map _
  · refine ((hperm.map (fun r => r.filename)).nodup_iff).mpr ?_
    rw [hnames]
    exact hnodup

/-- Witness instance of C9 with two healthy, distinct inputs, both encoding
successfully in 4 ticks. -/
theorem c9_one_result_per_file_witness :
    ([⟨true, "a.mp4", 50, 30, 4⟩, ⟨true, "b.mov", 50, 30, 4⟩] :
        List CompressionResult).map (fun r => r.filename) = ["a.mp4", "b.mov"] ∧
    ([⟨true, "a.mp4", 50, 30, 4⟩, ⟨true, "b.mov", 50, 30, 4⟩] :
        List CompressionResult).length = (["a.mp4", "b.mov"] : List String).length ∧
    ([⟨true, "a.mp4", 50, 30, 4⟩, ⟨true, "b.mov", 50, 30, 4⟩] :
        List CompressionResult).length = (["a.mp4", "b.mov"] : List String).length ∧
    (([⟨true, "a.mp4", 50, 30, 4⟩, ⟨true, "b.mov", 50, 30, 4⟩] :
        List CompressionResult).map (fun r => r.filename)).Perm ["a.mp4", "b.mov"] ∧
    (([⟨true, "a.mp4", 50, 30, 4⟩, ⟨true, "b.mov", 50, 30, 4⟩] :
        List CompressionResult).map (fun r => r.filename)).Nodup :=
  c9_one_result_per_file ["a.mp4", "b.mov"] true (fun _ => env_all_ok)
    [⟨true, "a.mp4", 50, 30, 4⟩, ⟨true, "b.mov", 50, 30, 4⟩]
    [⟨true, "a.mp4", 50, 30, 4⟩, ⟨true, "b.mov", 50, 30, 4⟩]
    (fun _ => ⟨50, rfl⟩) (by decide) (by decide) rfl (List.Perm.refl _)

/-- Witness instance of the amended C7 at a 4K (3840x2160) input. -/
theorem c7_filter_amended_witness :
    gpu_scale_filter = cpu_scale_filter ∧
    (∀ input_path output_path : String,
       gpu_scale_filter ∈ build_gpu_cmd input_path output_path ∧
       cpu_scale_filter ∈ build_cpu_cmd input_path output_path) ∧
    (scale_dims 3840 2160).1 ≤ 3840 ∧ (scale_dims 3840 2160).2 ≤ 2160 ∧
    (scale_dims 3840 2160).1 ≤ 1920 ∧ (scale_dims 3840 2160).2 ≤ 1080 ∧
    (filter_dims 3840 2160).1 % 2 = 0 ∧ (filter_dims 3840 2160).2 % 2 = 0 ∧
    (filter_dims 3840 2160).1 ≤ 1920 ∧ (filter_dims 3840 2160).2 ≤ 1080 ∧
    (filter_dims 3840 2160).1 ≤ (scale_dims 3840 2160).1 + 1 ∧
    (filter_dims 3840 2160).2 ≤ (scale_dims 3840 2160).2 + 1 ∧
    (scale_dims 3840 2160).1 * 2160 ≤ (scale_dims 3840 2160).2 * 3840 + 2 * (3840 + 2160) ∧
    (scale_dims 3840 2160).2 * 3840 ≤ (scale_dims 3840 2160).1 * 2160 + 2 * (3840 + 2160) :=
  c7_filter_amended 3840 2160 (by decide) (by decide)
